import Mathlib

/-!
Verification of the baremetal MCTP `Router`
(`src/platform/impls/baremetal/mctp/src/lib.rs`).

The Rust code is shallowly embedded: `usize` indices, `Eid`, `MsgType` and
`AppCookie` values become `Nat`; the two fixed-size slot arrays become lists
of `Option` values (a fresh router holds `List.replicate 64 none`); methods
on `&mut self` become functions from a `Router` state to a result paired
with the successor state.  The external reassembly/fragmentation engine
(`mctp_estack::Stack`) is out of scope of the repository; interactions with
it are made explicit: the already-reassembled inbound message is a parameter
of `Router.inboundMsg`, retained messages are recorded in an explicit
deferred queue, and flow cancellations requested by `unbind` are returned as
an explicit list of `(eid, tag)` calls.
-/

namespace Mctp

/-- `MAX_LISTENER_HANDLES` from the source. -/
def MAX_LISTENER_HANDLES : Nat := 64

/-- `MAX_REQUEST_HANDLES` from the source. -/
def MAX_REQUEST_HANDLES : Nat := 64

/-- The `mctp::Error` variants used by the router. -/
inductive RError
  | noSpace
  | addrInUse
  | badArgument
  deriving DecidableEq, Repr

/-- `mctp::Tag`: `Owned` is a request-style (freshly originated) tag,
`Unowned` a response-style tag; the payload is the tag value (`tag.tag()`). -/
inductive MTag
  | owned (v : Nat)
  | unowned (v : Nat)
  deriving DecidableEq, Repr

/-- `Tag::tag()`: the tag value carried by either variant. -/
def MTag.tagValue : MTag → Nat
  | .owned v => v
  | .unowned v => v

/-- `ReqHandle`: destination EID plus the optional tag from the last send. -/
structure ReqHandle where
  eid : Nat
  last_tag : Option MTag
  deriving DecidableEq, Repr

/-- `ReqHandle::new`. -/
def ReqHandle.new (eid : Nat) : ReqHandle :=
  { eid := eid, last_tag := none }

/-- A reassembled MCTP message as handed back by `Stack::receive`:
destination EID, message type, tag, and the optional application cookie. -/
structure MctpMessage where
  dest : Nat
  typ : Nat
  tag : MTag
  cookie : Option Nat
  deriving DecidableEq, Repr

/-- The `Router` state: own EID (held by the stack), the listener table,
the request table, and the engine-side deferred queue of retained messages
keyed by cookie (abstracting `Stack`'s retention mechanism). -/
structure Router where
  own_eid : Nat
  listeners : List (Option Nat)
  requests : List (Option ReqHandle)
  deferred : List (Nat × MctpMessage)
  deriving DecidableEq, Repr

/-- `Router::new`: both tables start with every slot free. -/
def Router.new (own_eid : Nat) : Router :=
  { own_eid := own_eid
    listeners := List.replicate MAX_LISTENER_HANDLES none
    requests := List.replicate MAX_REQUEST_HANDLES none
    deferred := [] }

/-- `listener_cookie_from_index`: listener cookies are the raw index.
(The `debug_assert!` bound is a development-time check, not a value change.) -/
def listener_cookie_from_index (i : Nat) : Nat := i

/-- `req_cookie_from_index`: request cookies are offset by the listener
table capacity. -/
def req_cookie_from_index (i : Nat) : Nat := i + MAX_LISTENER_HANDLES

/-- `listeners_index_from_cookie`. -/
def listeners_index_from_cookie (c : Nat) : Option Nat :=
  if c < MAX_LISTENER_HANDLES then some c else none

/-- `requests_index_from_cookie`. -/
def requests_index_from_cookie (c : Nat) : Option Nat :=
  if MAX_LISTENER_HANDLES ≤ c ∧ c < MAX_LISTENER_HANDLES + MAX_REQUEST_HANDLES then
    some (c - MAX_LISTENER_HANDLES)
  else none

/-- `cookie_is_listener`. -/
def cookie_is_listener (c : Nat) : Bool :=
  c < MAX_LISTENER_HANDLES

/-- The first-free-slot scan of `Router::listener`: insert `typ` into the
first `none` slot, returning its index and the updated table, or `none`
when the table is full. -/
def bindFirstFreeListener (typ : Nat) : List (Option Nat) → Option (Nat × List (Option Nat))
  | [] => none
  | none :: rest => some (0, some typ :: rest)
  | some t :: rest =>
    match bindFirstFreeListener typ rest with
    | some (i, l) => some (i + 1, some t :: l)
    | none => none

/-- `Router::listener`: reject a duplicate type with `AddrInUse`, otherwise
bind the first free slot, or fail `NoSpace` when the table is full. -/
def Router.listener (st : Router) (typ : Nat) : Except RError Nat × Router :=
  if st.listeners.any (· == some typ) then (.error .addrInUse, st)
  else
    match bindFirstFreeListener typ st.listeners with
    | some (index, l) =>
      (.ok (listener_cookie_from_index index), { st with listeners := l })
    | none => (.error .noSpace, st)

/-- The first-free-slot scan of `Router::req`. -/
def bindFirstFreeRequest (eid : Nat) : List (Option ReqHandle) → Option (Nat × List (Option ReqHandle))
  | [] => none
  | none :: rest => some (0, some (ReqHandle.new eid) :: rest)
  | some h :: rest =>
    match bindFirstFreeRequest eid rest with
    | some (i, l) => some (i + 1, some h :: l)
    | none => none

/-- `Router::req`: bind the first free request slot, or fail `NoSpace`. -/
def Router.req (st : Router) (eid : Nat) : Except RError Nat × Router :=
  match bindFirstFreeRequest eid st.requests with
  | some (index, l) =>
    (.ok (req_cookie_from_index index), { st with requests := l })
  | none => (.error .noSpace, st)

/-- Driver for the exhaustion scenario: perform one `Router::listener` call
per message type in the list, stopping at the first failure. -/
def allocListeners (st : Router) : List Nat → Except RError Router
  | [] => .ok st
  | t :: rest =>
    match Router.listener st t with
    | (.ok _, st') => allocListeners st' rest
    | (.error e, _) => .error e

/-- What `Router::inbound` did with a reassembled message: dropped it, or
retained it in the engine's deferred queue under the given cookie. -/
inductive InboundEffect
  | dropped
  | retained (cookie : Option Nat)
  deriving DecidableEq, Repr

/-- The listener scan of `Router::inbound`: index of the first slot bound
to `typ`. -/
def findListener (typ : Nat) : List (Option Nat) → Option Nat
  | [] => none
  | x :: rest =>
    if x == some typ then some 0
    else (findListener typ rest).map (· + 1)

/-- The body of `Router::inbound` after `Stack::receive` produced a complete
message `msg`.  Retention (`msg.retain()`) appends to the deferred queue. -/
def Router.inboundMsg (st : Router) (msg : MctpMessage) : Router × InboundEffect :=
  if msg.dest ≠ st.own_eid then (st, .dropped)
  else
    match msg.tag with
    | .unowned _ =>
      match msg.cookie with
      | some c =>
        match requests_index_from_cookie c with
        | some i =>
          if (st.requests.getD i none).isSome then
            ({ st with deferred := st.deferred ++ [(c, msg)] }, .retained (some c))
          else (st, .dropped)
        | none => (st, .dropped)
      | none => (st, .dropped)
    | .owned _ =>
      match findListener msg.typ st.listeners with
      | some i =>
        ({ st with deferred := st.deferred ++ [(listener_cookie_from_index i,
            { msg with cookie := some (listener_cookie_from_index i) })] },
         .retained (some (listener_cookie_from_index i)))
      | none => (st, .dropped)

/-- `Router::inbound`, parameterised by the outcome of `Stack::receive` on
the raw packet: a decode error propagates, an incomplete reassembly returns
`Ok` with no effect, and a complete message goes through `inboundMsg`. -/
def Router.inbound (st : Router) (rcv : Except RError (Option MctpMessage)) :
    Except RError (Router × InboundEffect) :=
  match rcv with
  | .error e => .error e
  | .ok none => .ok (st, .dropped)
  | .ok (some msg) => .ok (st.inboundMsg msg)

/-- `Router::unbind`: free the slot named by the cookie.  The third
component lists the `Stack::cancel_flow (eid, tag)` calls issued. -/
def Router.unbind (st : Router) (cookie : Nat) : Except RError Unit × Router × List (Nat × Nat) :=
  if cookie_is_listener cookie then
    match listeners_index_from_cookie cookie with
    | none => (.error .badArgument, st, [])
    | some i =>
      match st.listeners.getD i none with
      | none => (.error .badArgument, st, [])
      | some _ => (.ok (), { st with listeners := st.listeners.set i none }, [])
  else
    match requests_index_from_cookie cookie with
    | none => (.error .badArgument, st, [])
    | some i =>
      match st.requests.getD i none with
      | none => (.error .badArgument, st, [])
      | some req =>
        match req.last_tag with
        | some tag =>
          (.ok (), { st with requests := st.requests.set i none },
           [(req.eid, tag.tagValue)])
        | none => (.ok (), { st with requests := st.requests.set i none }, [])

/-- `Stack::get_deferred_bycookie` on the abstract deferred queue: the first
retained message stored under the cookie. -/
def getDeferredByCookie (deferred : List (Nat × MctpMessage)) (c : Nat) : Option MctpMessage :=
  (deferred.find? (fun p => p.1 == c)).map (·.2)

/-- `Router::recv`: a pure pass-through to the engine's deferred queue;
its result type has no error case. -/
def Router.recv (st : Router) (cookie : Nat) : Option MctpMessage × Router :=
  (getDeferredByCookie st.deferred cookie, st)

/-- Outcome of the payload-assembly stage of `Router::send`:
the payload handed to the fragmentation engine, an early `NoSpace`
failure, or a Rust panic. -/
inductive SendPayload
  | payload (l : List Nat)
  | noSpace
  | panicked
  deriving DecidableEq, Repr

/-- `buffer[lo..hi].copy_from_slice(p)` modelled as a pure write: the
caller is responsible for the range validity and length checks. -/
def writeRange (buffer : List Nat) (lo hi : Nat) (p : List Nat) : List Nat :=
  buffer.take lo ++ p ++ buffer.drop hi

/-- The scratch-copy loop of `Router::send`, verbatim from the source:
`local_buffer[start..p.len()].copy_from_slice(p); start += p.len();`.
The slice expression requires `start ≤ p.len()` (a valid range) and
`copy_from_slice` requires the range length `p.len() - start` to equal
`p.len()`; violating either panics, modelled as `none`. -/
def sendCopyLoop (buffer : List Nat) (start : Nat) : List (List Nat) → Option (List Nat × Nat)
  | [] => some (buffer, start)
  | p :: rest =>
    if start ≤ p.length ∧ p.length ≤ buffer.length ∧ p.length - start = p.length then
      sendCopyLoop (writeRange buffer start p.length p) (start + p.length) rest
    else none

/-- The payload-assembly stage of `Router::send`: a single buffer is used
directly; otherwise the total length is checked against the engine's
maximum payload (`mctp_estack::config::MAX_PAYLOAD`, kept as the parameter
`maxPayload` since the engine crate is external) before the copy loop runs
over a zeroed scratch buffer. -/
def sendPayloadAssembly (maxPayload : Nat) (bufs : List (List Nat)) : SendPayload :=
  if bufs.length = 1 then .payload (bufs.getD 0 [])
  else
    let total_len := bufs.foldl (fun acc x => acc + x.length) 0
    if total_len > maxPayload then .noSpace
    else
      match sendCopyLoop (List.replicate maxPayload 0) 0 bufs with
      | some (buffer, _) => .payload (buffer.take total_len)
      | none => .panicked

/-- One step of the engine's fragmenter (`fragment::SendOutput`). -/
inductive SendOutput
  | packet
  | complete (tag : Nat)
  | error (e : RError)
  deriving DecidableEq, Repr

/-- Result of `Router::send`: the returned tag, a surfaced error, or a
Rust panic. -/
inductive SendResult
  | ok (tag : Nat)
  | err (e : RError)
  | panicked
  deriving DecidableEq, Repr

/-- `Router::send`, with the external engine made explicit: `startSend` is
the outcome of `Stack::start_send` and `fragOut` the fragmenter's verdict
on the assembled payload.  The source's fragment loop returns the tag on
`Complete`, propagates `Error`, and hits `todo!()` — a panic — on the
first `Packet`. -/
def Router.sendModel (maxPayload : Nat) (startSend : Except RError Unit)
    (fragOut : List Nat → SendOutput) (bufs : List (List Nat)) : SendResult :=
  match startSend with
  | .error e => .err e
  | .ok _ =>
    match sendPayloadAssembly maxPayload bufs with
    | .noSpace => .err .noSpace
    | .panicked => .panicked
    | .payload pl =>
      match fragOut pl with
      | .packet => .panicked
      | .complete t => .ok t
      | .error e => .err e

end Mctp

namespace Mctp

/-- C1: Cookie codec bijection: encoding then decoding is the identity on
each table's valid index range, `cookie_is_listener` classifies the two
ranges correctly, neither range decodes in the other table, and any value
past both ranges decodes in neither. -/
theorem cookie_codec_bijection :
    (∀ i, i < MAX_LISTENER_HANDLES →
      listeners_index_from_cookie (listener_cookie_from_index i) = some i ∧
      cookie_is_listener (listener_cookie_from_index i) = true) ∧
    (∀ i, i < MAX_REQUEST_HANDLES →
      requests_index_from_cookie (req_cookie_from_index i) = some i ∧
      cookie_is_listener (req_cookie_from_index i) = false) ∧
    (∀ c, c < MAX_LISTENER_HANDLES → requests_index_from_cookie c = none) ∧
    (∀ c, MAX_LISTENER_HANDLES ≤ c → c < MAX_LISTENER_HANDLES + MAX_REQUEST_HANDLES →
      listeners_index_from_cookie c = none) ∧
    (∀ c, MAX_LISTENER_HANDLES + MAX_REQUEST_HANDLES ≤ c →
      listeners_index_from_cookie c = none ∧ requests_index_from_cookie c = none) := by
  refine ⟨?_, ?_, ?_, ?_, ?_⟩
  · intro i hi
    constructor
    · simp [listeners_index_from_cookie, listener_cookie_from_index, hi]
    · simp [cookie_is_listener, listener_cookie_from_index, hi]
  · intro i hi
    constructor
    · simp only [requests_index_from_cookie, req_cookie_from_index]
      rw [if_pos]
      · simp
      · unfold MAX_LISTENER_HANDLES MAX_REQUEST_HANDLES at *
        omega
    · simp only [cookie_is_listener, req_cookie_from_index]
      unfold MAX_LISTENER_HANDLES at *
      simp
  · intro c hc
    simp only [requests_index_from_cookie]
    rw [if_neg]
    omega
  · intro c hc1 hc2
    simp only [listeners_index_from_cookie]
    rw [if_neg]
    omega
  · intro c hc
    constructor
    · simp only [listeners_index_from_cookie]
      rw [if_neg]
      unfold MAX_LISTENER_HANDLES MAX_REQUEST_HANDLES at *
      omega
    · simp only [requests_index_from_cookie]
      rw [if_neg]
      unfold MAX_LISTENER_HANDLES MAX_REQUEST_HANDLES at *
      omega

/-- Witness for C1 at concrete indices. -/
theorem cookie_codec_bijection_witness :
    listeners_index_from_cookie (listener_cookie_from_index 3) = some 3 ∧
    requests_index_from_cookie (req_cookie_from_index 5) = some 5 := by
  exact ⟨(cookie_codec_bijection.1 3 (by decide)).1,
    (cookie_codec_bijection.2.1 5 (by decide)).1⟩

set_option maxRecDepth 20000 in
/-- C2 (refuting the claim as stated): `Router::send` panics on reachable
production inputs.  With two non-empty buffers the scratch-copy loop slices
`local_buffer[start..p.len()]` instead of `local_buffer[start..start+p.len()]`,
so the second `copy_from_slice` fails its length check; and whenever the
fragmenter emits a packet the loop body is `todo!()`.  Both are panics, not
surfaced error values. -/
theorem send_panics_on_reachable_inputs :
    Router.sendModel 1032 (.ok ()) (fun _ => .complete 0) [[3, 4], [5]] = .panicked ∧
    Router.sendModel 1032 (.ok ()) (fun _ => .packet) [[1, 2, 3]] = .panicked :=
  ⟨rfl, rfl⟩

set_option maxRecDepth 20000 in
/-- C3 (refuting the concatenation half of the claim): for the in-bounds
two-buffer payload `[[1], [2]]` the assembly stage panics instead of handing
the fragmentation engine the concatenation `[1, 2]`. -/
theorem send_concatenation_code_bug :
    sendPayloadAssembly 1032 [[1], [2]] = .panicked ∧
    sendPayloadAssembly 1032 [[1], [2]] ≠ .payload [1, 2] :=
  ⟨rfl, by decide⟩

/-- The `NoSpace` half of C3 does hold: with at least two buffers whose
total length exceeds the maximum payload, `send` fails `NoSpace` no matter
how the engine would behave — no packet is ever requested from it. -/
theorem send_noSpace_before_emission (maxPayload : Nat) (startSend : Except RError Unit)
    (fragOut fragOut' : List Nat → SendOutput) (bufs : List (List Nat))
    (hn : bufs.length ≠ 1)
    (hover : bufs.foldl (fun acc x => acc + x.length) 0 > maxPayload) :
    Router.sendModel maxPayload startSend fragOut bufs =
      Router.sendModel maxPayload startSend fragOut' bufs ∧
    (startSend = .ok () →
      Router.sendModel maxPayload startSend fragOut bufs = .err .noSpace) := by
  have hassem : sendPayloadAssembly maxPayload bufs = .noSpace := by
    simp only [sendPayloadAssembly]
    rw [if_neg hn, if_pos hover]
  constructor
  · cases startSend with
    | error e => rfl
    | ok u => simp [Router.sendModel, hassem]
  · intro hss
    rw [hss]
    simp [Router.sendModel, hassem]

/-- Witness for `send_noSpace_before_emission` at a concrete overlong
scatter list. -/
theorem send_noSpace_before_emission_witness :
    Router.sendModel 4 (.ok ()) (fun _ => .packet) [[1, 2, 3], [4, 5]] = .err .noSpace :=
  (send_noSpace_before_emission 4 (.ok ()) (fun _ => .packet) (fun _ => .complete 0)
    [[1, 2, 3], [4, 5]] (by decide) (by decide)).2 rfl

/-- C4: EID isolation: a reassembled message whose destination EID differs
from the router's own EID is dropped, the whole router state (both handle
tables included) is unchanged, and `inbound` returns `Ok`. -/
theorem eid_isolation (st : Router) (msg : MctpMessage) (h : msg.dest ≠ st.own_eid) :
    Router.inbound st (.ok (some msg)) = .ok (st, .dropped) := by
  simp [Router.inbound, Router.inboundMsg, h]

/-- Witness for C4. -/
theorem eid_isolation_witness :
    Router.inbound (Router.new 1) (.ok (some { dest := 2, typ := 0, tag := .owned 0, cookie := none })) =
      .ok (Router.new 1, .dropped) :=
  eid_isolation (Router.new 1) { dest := 2, typ := 0, tag := .owned 0, cookie := none } (by decide)

/-- C5: Unsolicited response drop: a response-style (unowned-tag) message
addressed to this endpoint that carries no cookie, a cookie outside the
request range, or a cookie naming a free request slot is not retained,
leaves the router state (both tables included) unchanged, and `inbound`
returns `Ok`. -/
theorem unsolicited_response_drop (st : Router) (msg : MctpMessage) (v : Nat)
    (hdest : msg.dest = st.own_eid) (htag : msg.tag = .unowned v)
    (hcookie : msg.cookie = none ∨
      (∃ c, msg.cookie = some c ∧ requests_index_from_cookie c = none) ∨
      (∃ c i, msg.cookie = some c ∧ requests_index_from_cookie c = some i ∧
        st.requests.getD i none = none)) :
    Router.inbound st (.ok (some msg)) = .ok (st, .dropped) := by
  simp only [Router.inbound, Router.inboundMsg, htag]
  rw [if_neg (by simp [hdest])]
  rcases hcookie with h | ⟨c, hc, hr⟩ | ⟨c, i, hc, hr, hfree⟩
  · simp [h]
  · simp [hc, hr]
  · rw [List.getD_eq_getElem?_getD] at hfree
    simp [hc, hr, hfree]

/-- Witness for C5: an unowned-tag message with no cookie at the router's
own EID. -/
theorem unsolicited_response_drop_witness :
    Router.inbound (Router.new 3) (.ok (some { dest := 3, typ := 5, tag := .unowned 2, cookie := none })) =
      .ok (Router.new 3, .dropped) :=
  unsolicited_response_drop (Router.new 3)
    { dest := 3, typ := 5, tag := .unowned 2, cookie := none } 2 rfl rfl (Or.inl rfl)

/-- C10: `recv` performs no cookie validation and cannot fail: for every
cookie — malformed ones included — it leaves the router state (both tables
included) untouched; when the deferred queue holds nothing under the cookie
the result is `none`, so a malformed cookie is indistinguishable from an
empty mailbox; by contrast `unbind` on the same malformed cookie fails
`BadArgument`. -/
theorem recv_no_validation (st : Router) (c : Nat) :
    (Router.recv st c).2 = st ∧
    ((∀ p ∈ st.deferred, p.1 ≠ c) → (Router.recv st c).1 = none) ∧
    (∀ c', (∀ p ∈ st.deferred, p.1 ≠ c ∧ p.1 ≠ c') →
      Router.recv st c = Router.recv st c') ∧
    (MAX_LISTENER_HANDLES + MAX_REQUEST_HANDLES ≤ c →
      Router.unbind st c = (.error .badArgument, st, [])) := by
  refine ⟨rfl, ?_, ?_, ?_⟩
  · intro h
    simp only [Router.recv, getDeferredByCookie]
    rw [List.find?_eq_none.mpr]
    · rfl
    · intro p hp
      simpa using h p hp
  · intro c' h
    simp only [Router.recv, getDeferredByCookie]
    rw [List.find?_eq_none.mpr, List.find?_eq_none.mpr]
    · intro p hp
      simpa using (h p hp).2
    · intro p hp
      simpa using (h p hp).1
  · intro hc
    have h1 : cookie_is_listener c = false := by
      simp only [cookie_is_listener, MAX_LISTENER_HANDLES, MAX_REQUEST_HANDLES] at *
      simp only [decide_eq_false_iff_not]
      omega
    have h2 : requests_index_from_cookie c = none := by
      simp only [requests_index_from_cookie]
      rw [if_neg]
      simp only [MAX_LISTENER_HANDLES, MAX_REQUEST_HANDLES] at *
      omega
    simp [Router.unbind, h1, h2]

lemma cookie_is_listener_true {c : Nat} (h : c < MAX_LISTENER_HANDLES) :
    cookie_is_listener c = true := by
  simp only [cookie_is_listener, decide_eq_true_eq]
  exact h

lemma cookie_is_listener_false {c : Nat} (h : MAX_LISTENER_HANDLES ≤ c) :
    cookie_is_listener c = false := by
  simp only [cookie_is_listener, decide_eq_false_iff_not]
  omega

lemma listeners_index_some {c i : Nat} :
    listeners_index_from_cookie c = some i ↔ c < MAX_LISTENER_HANDLES ∧ i = c := by
  constructor
  · intro h
    by_cases hc : c < MAX_LISTENER_HANDLES
    · rw [listeners_index_from_cookie, if_pos hc] at h
      exact ⟨hc, (Option.some_inj.mp h).symm⟩
    · rw [listeners_index_from_cookie, if_neg hc] at h
      cases h
  · rintro ⟨hc, rfl⟩
    exact if_pos hc

lemma requests_index_some {c i : Nat} :
    requests_index_from_cookie c = some i ↔
      (MAX_LISTENER_HANDLES ≤ c ∧ c < MAX_LISTENER_HANDLES + MAX_REQUEST_HANDLES) ∧
        i = c - MAX_LISTENER_HANDLES := by
  constructor
  · intro h
    by_cases hc : MAX_LISTENER_HANDLES ≤ c ∧ c < MAX_LISTENER_HANDLES + MAX_REQUEST_HANDLES
    · rw [requests_index_from_cookie, if_pos hc] at h
      exact ⟨hc, (Option.some_inj.mp h).symm⟩
    · rw [requests_index_from_cookie, if_neg hc] at h
      cases h
  · rintro ⟨hc, rfl⟩
    exact if_pos hc

lemma requests_index_none {c : Nat}
    (h : ¬(MAX_LISTENER_HANDLES ≤ c ∧ c < MAX_LISTENER_HANDLES + MAX_REQUEST_HANDLES)) :
    requests_index_from_cookie c = none := by
  rw [requests_index_from_cookie, if_neg h]

/-- C8: Release error atomicity: `unbind` on a cookie past both ranges, or
one naming a free slot in its table, fails `BadArgument` with the state
fully unchanged and no cancellation issued; on a cookie naming an occupied
slot it succeeds and the new state clears exactly that slot. -/
theorem release_error_atomicity (st : Router) (c : Nat) :
    (MAX_LISTENER_HANDLES + MAX_REQUEST_HANDLES ≤ c →
      Router.unbind st c = (.error .badArgument, st, [])) ∧
    (∀ i, listeners_index_from_cookie c = some i → st.listeners.getD i none = none →
      Router.unbind st c = (.error .badArgument, st, [])) ∧
    (∀ i, requests_index_from_cookie c = some i → st.requests.getD i none = none →
      Router.unbind st c = (.error .badArgument, st, [])) ∧
    (∀ i t, listeners_index_from_cookie c = some i → st.listeners.getD i none = some t →
      (Router.unbind st c).1 = .ok () ∧
      (Router.unbind st c).2.1 = { st with listeners := st.listeners.set i none }) ∧
    (∀ i h, requests_index_from_cookie c = some i → st.requests.getD i none = some h →
      (Router.unbind st c).1 = .ok () ∧
      (Router.unbind st c).2.1 = { st with requests := st.requests.set i none }) := by
  refine ⟨?_, ?_, ?_, ?_, ?_⟩
  · intro hc
    have h1 : cookie_is_listener c = false := cookie_is_listener_false (by omega)
    have h2 : requests_index_from_cookie c = none := requests_index_none (by omega)
    simp [Router.unbind, h1, h2]
  · intro i hidx hfree
    obtain ⟨hc, rfl⟩ := listeners_index_some.mp hidx
    have hb := cookie_is_listener_true hc
    rw [List.getD_eq_getElem?_getD] at hfree
    simp [Router.unbind, hb, hidx, hfree]
  · intro i hidx hfree
    obtain ⟨hc, rfl⟩ := requests_index_some.mp hidx
    have hb := cookie_is_listener_false hc.1
    rw [List.getD_eq_getElem?_getD] at hfree
    simp [Router.unbind, hb, hidx, hfree]
  · intro i t hidx hocc
    obtain ⟨hc, rfl⟩ := listeners_index_some.mp hidx
    have hb := cookie_is_listener_true hc
    rw [List.getD_eq_getElem?_getD] at hocc
    simp [Router.unbind, hb, hidx, hocc]
  · intro i h hidx hocc
    obtain ⟨hc, rfl⟩ := requests_index_some.mp hidx
    have hb := cookie_is_listener_false hc.1
    rw [List.getD_eq_getElem?_getD] at hocc
    cases hlt : h.last_tag with
    | none => simp [Router.unbind, hb, hidx, hocc, hlt]
    | some tag => simp [Router.unbind, hb, hidx, hocc, hlt]

/-- Witness for C8: on a fresh router, the malformed cookie 130 and the
free listener slot 0 both fail `BadArgument` unchanged. -/
theorem release_error_atomicity_witness :
    Router.unbind (Router.new 4) 130 = (.error .badArgument, Router.new 4, []) ∧
    Router.unbind (Router.new 4) 0 = (.error .badArgument, Router.new 4, []) := by
  refine ⟨(release_error_atomicity (Router.new 4) 130).1 (by decide),
    (release_error_atomicity (Router.new 4) 0).2.1 0 (by decide) ?_⟩
  simp [Router.new]

/-- C9: Release cancellation: unbinding an occupied request slot whose
handle holds tag `tag` issues exactly the single cancellation
`(handle.eid, tag.tagValue)`; unbinding an occupied request slot with no
tag, or any listener cookie, issues no cancellation. -/
theorem release_cancellation (st : Router) (c : Nat) :
    (∀ i h tag, requests_index_from_cookie c = some i →
      st.requests.getD i none = some h → h.last_tag = some tag →
      Router.unbind st c = (.ok (), { st with requests := st.requests.set i none },
        [(h.eid, tag.tagValue)])) ∧
    (∀ i h, requests_index_from_cookie c = some i →
      st.requests.getD i none = some h → h.last_tag = none →
      Router.unbind st c = (.ok (), { st with requests := st.requests.set i none }, [])) ∧
    (cookie_is_listener c = true → (Router.unbind st c).2.2 = []) := by
  refine ⟨?_, ?_, ?_⟩
  · intro i h tag hidx hocc hlt
    obtain ⟨hc, rfl⟩ := requests_index_some.mp hidx
    have hb := cookie_is_listener_false hc.1
    rw [List.getD_eq_getElem?_getD] at hocc
    simp [Router.unbind, hb, hidx, hocc, hlt]
  · intro i h hidx hocc hlt
    obtain ⟨hc, rfl⟩ := requests_index_some.mp hidx
    have hb := cookie_is_listener_false hc.1
    rw [List.getD_eq_getElem?_getD] at hocc
    simp [Router.unbind, hb, hidx, hocc, hlt]
  · intro hb
    simp only [Router.unbind, hb, if_true]
    split
    · rfl
    · split
      · rfl
      · rfl

/-- Witness for C9: unbinding request cookie 64 whose slot holds
destination 9 and tag 3 cancels exactly `(9, 3)`. -/
theorem release_cancellation_witness :
    Router.unbind
        { own_eid := 0, listeners := [], deferred := [],
          requests := [some { eid := 9, last_tag := some (.owned 3) }] } 64 =
      (.ok (), { own_eid := 0, listeners := [], deferred := [], requests := [none] },
        [(9, 3)]) :=
  (release_cancellation
      { own_eid := 0, listeners := [], deferred := [],
        requests := [some { eid := 9, last_tag := some (.owned 3) }] } 64).1
    0 { eid := 9, last_tag := some (.owned 3) } (.owned 3) (by decide) rfl rfl

lemma listeners_any_eq_true {l : List (Option Nat)} {typ : Nat} :
    l.any (· == some typ) = true ↔ some typ ∈ l := by
  simp [List.any_eq_true]

lemma listeners_any_eq_false {l : List (Option Nat)} {typ : Nat} (h : some typ ∉ l) :
    l.any (· == some typ) = false := by
  rw [List.any_eq_false]
  intro x hx heq
  rw [beq_iff_eq] at heq
  exact h (heq ▸ hx)

lemma bindFirstFreeListener_of_no_free (typ : Nat) :
    ∀ l : List (Option Nat), none ∉ l → bindFirstFreeListener typ l = none := by
  intro l
  induction l with
  | nil => intro _; rfl
  | cons x rest ih =>
    intro h
    cases x with
    | none => exact absurd (List.mem_cons_self _ _) h
    | some t =>
      simp only [bindFirstFreeListener]
      rw [ih (fun hm => h (List.mem_cons_of_mem _ hm))]

lemma bindFirstFreeListener_first_free (typ : Nat) :
    ∀ (l : List (Option Nat)) (i : Nat), l[i]? = some none →
      (∀ k, k < i → l[k]? ≠ some none) →
      bindFirstFreeListener typ l = some (i, l.set i (some typ)) := by
  intro l
  induction l with
  | nil => intro i hi _; simp at hi
  | cons x rest ih =>
    intro i hi hk
    cases x with
    | none =>
      cases i with
      | zero => rfl
      | succ j =>
        exact absurd (by simp) (hk 0 (Nat.succ_pos j))
    | some t =>
      cases i with
      | zero => simp at hi
      | succ j =>
        have h1 : rest[j]? = some none := by simpa using hi
        have h2 : ∀ k, k < j → rest[k]? ≠ some none := by
          intro k hkj hbad
          exact hk (k + 1) (by omega) (by simpa using hbad)
        simp only [bindFirstFreeListener]
        rw [ih j h1 h2]
        rfl

lemma exists_first_none {α : Type} :
    ∀ l : List (Option α), none ∈ l →
      ∃ i : Nat, l[i]? = some none ∧ ∀ k : Nat, k < i → l[k]? ≠ some none := by
  intro l
  induction l with
  | nil => intro h; simp at h
  | cons x rest ih =>
    intro h
    cases x with
    | none =>
      exact ⟨0, by simp, fun k hk => absurd hk (Nat.not_lt_zero k)⟩
    | some t =>
      have hr : none ∈ rest := by
        rcases List.mem_cons.mp h with h1 | h2
        · cases h1
        · exact h2
      obtain ⟨i, h1, h2⟩ := ih hr
      refine ⟨i + 1, by simpa using h1, ?_⟩
      intro k hk
      cases k with
      | zero => simp
      | succ j =>
        intro hbad
        exact h2 j (by omega) (by simpa using hbad)

/-- C6: Duplicate listener rejection: when some slot already holds `typ`,
`Router::listener` fails `AddrInUse` and the state (the listener table in
particular) is exactly the one before the call; when no slot holds `typ`
and a free slot exists, the call binds the first free slot (lowest index)
and returns its cookie. -/
theorem duplicate_listener_rejection (st : Router) (typ : Nat) :
    (some typ ∈ st.listeners →
      Router.listener st typ = (.error .addrInUse, st)) ∧
    (some typ ∉ st.listeners → none ∈ st.listeners →
      ∃ i, st.listeners[i]? = some none ∧ (∀ k, k < i → st.listeners[k]? ≠ some none) ∧
        Router.listener st typ =
          (.ok (listener_cookie_from_index i),
           { st with listeners := st.listeners.set i (some typ) })) := by
  constructor
  · intro h
    rw [Router.listener, if_pos (listeners_any_eq_true.mpr h)]
  · intro hdup hfree
    obtain ⟨i, h1, h2⟩ := exists_first_none st.listeners hfree
    refine ⟨i, h1, h2, ?_⟩
    rw [Router.listener, if_neg (by rw [listeners_any_eq_false hdup]; exact Bool.false_ne_true),
      bindFirstFreeListener_first_free typ st.listeners i h1 h2]

/-- Witness for C6: on a one-slot state holding type 7, rebinding 7 fails
`AddrInUse` unchanged; on a fresh router, binding 7 takes slot 0. -/
theorem duplicate_listener_rejection_witness :
    Router.listener { own_eid := 1, listeners := [some 7], requests := [], deferred := [] } 7 =
      (.error .addrInUse,
       { own_eid := 1, listeners := [some 7], requests := [], deferred := [] }) ∧
    ∃ i, (Router.new 1).listeners[i]? = some none ∧
      (∀ k, k < i → (Router.new 1).listeners[k]? ≠ some none) ∧
      Router.listener (Router.new 1) 7 =
        (.ok (listener_cookie_from_index i),
         { Router.new 1 with listeners := (Router.new 1).listeners.set i (some 7) }) :=
  ⟨(duplicate_listener_rejection
      { own_eid := 1, listeners := [some 7], requests := [], deferred := [] } 7).1 (by decide),
   (duplicate_listener_rejection (Router.new 1) 7).2 (by decide) (by decide)⟩

lemma bindFirstFreeListener_append (typ : Nat) :
    ∀ (done : List Nat) (k : Nat), 0 < k →
      bindFirstFreeListener typ (done.map some ++ List.replicate k none) =
        some (done.length, done.map some ++ some typ :: List.replicate (k - 1) none) := by
  intro done
  induction done with
  | nil =>
    intro k hk
    cases k with
    | zero => omega
    | succ n => simp [bindFirstFreeListener, List.replicate_succ]
  | cons d rest ih =>
    intro k hk
    simp only [List.map_cons, List.cons_append, List.append_eq, bindFirstFreeListener]
    rw [ih k hk]
    rfl

lemma bindFirstFreeListener_full (typ : Nat) :
    ∀ l : List Nat, bindFirstFreeListener typ (l.map some) = none := by
  intro l
  induction l with
  | nil => rfl
  | cons d rest ih =>
    simp only [List.map_cons, bindFirstFreeListener]
    rw [ih]

lemma listener_succeeds {st : Router} {typ : Nat}
    (h1 : some typ ∉ st.listeners) (h2 : none ∈ st.listeners) :
    ∃ c st2, Router.listener st typ = (.ok c, st2) := by
  obtain ⟨j, hj1, hj2⟩ := exists_first_none _ h2
  refine ⟨listener_cookie_from_index j,
    { st with listeners := st.listeners.set j (some typ) }, ?_⟩
  rw [Router.listener, if_neg (by rw [listeners_any_eq_false h1]; exact Bool.false_ne_true),
    bindFirstFreeListener_first_free typ st.listeners j hj1 hj2]

lemma allocListeners_run :
    ∀ (rest done : List Nat) (k : Nat) (st : Router),
      st.listeners = done.map some ++ List.replicate k none →
      (done ++ rest).Nodup →
      rest.length ≤ k →
      ∃ st', allocListeners st rest = .ok st' ∧
        st'.listeners = (done ++ rest).map some ++ List.replicate (k - rest.length) none ∧
        st'.own_eid = st.own_eid ∧ st'.requests = st.requests ∧ st'.deferred = st.deferred := by
  intro rest
  induction rest with
  | nil =>
    intro done k st hl _ _
    refine ⟨st, rfl, ?_, rfl, rfl, rfl⟩
    simpa using hl
  | cons t rest' ih =>
    intro done k st hl hnd hlen
    have hk : 0 < k := by
      simp only [List.length_cons] at hlen
      omega
    have hmem : some t ∉ st.listeners := by
      rw [hl]
      intro hmem
      rcases List.mem_append.mp hmem with h1 | h2
      · have ht : t ∈ done := by
          rcases List.mem_map.mp h1 with ⟨x, hx, hxe⟩
          cases Option.some_inj.mp hxe
          exact hx
        exact (List.nodup_append.mp hnd).2.2 ht (List.mem_cons_self t rest')
      · rw [List.mem_replicate] at h2
        cases h2.2
    have hlst : Router.listener st t =
        (.ok (listener_cookie_from_index done.length),
         { st with listeners := done.map some ++ some t :: List.replicate (k - 1) none }) := by
      rw [Router.listener, if_neg (by rw [listeners_any_eq_false hmem]; exact Bool.false_ne_true),
        hl, bindFirstFreeListener_append t done k hk]
    have hstep : allocListeners st (t :: rest') =
        allocListeners
          { st with listeners := done.map some ++ some t :: List.replicate (k - 1) none }
          rest' := by
      simp only [allocListeners]
      rw [hlst]
    have hl' : ({ st with listeners := done.map some ++ some t :: List.replicate (k - 1) none } :
          Router).listeners = (done ++ [t]).map some ++ List.replicate (k - 1) none := by
      simp
    have hnd' : ((done ++ [t]) ++ rest').Nodup := by
      simpa [List.append_assoc] using hnd
    have hlen' : rest'.length ≤ k - 1 := by
      simp only [List.length_cons] at hlen
      omega
    obtain ⟨st', hrun, hfin, he, hr, hd⟩ := ih (done ++ [t]) (k - 1) _ hl' hnd' hlen'
    refine ⟨st', ?_, ?_, ?_, ?_, ?_⟩
    · rw [hstep]
      exact hrun
    · rw [hfin]
      have e1 : (done ++ [t]) ++ rest' = done ++ t :: rest' := by simp
      have e2 : k - 1 - rest'.length = k - (t :: rest').length := by
        simp only [List.length_cons]
        omega
      rw [e1, e2]
    · simpa using he
    · simpa using hr
    · simpa using hd

lemma getD_map_some (l : List Nat) (i : Nat) (hi : i < l.length) :
    (l.map some).getD i none = some (l.getD i 0) := by
  rw [List.getD_eq_getElem?_getD, List.getElem?_map, List.getElem?_eq_getElem hi,
    List.getD_eq_getElem l 0 hi]
  rfl

lemma not_mem_set_map_some (l : List Nat) (hnd : l.Nodup) (i : Nat) (hi : i < l.length)
    (x : Nat) (hx : x ∉ l ∨ x = l.getD i 0) :
    some x ∉ (l.map some).set i none := by
  intro hmem
  obtain ⟨j, hj⟩ := List.mem_iff_getElem?.mp hmem
  by_cases hij : i = j
  · subst hij
    rw [List.getElem?_set_self (by simpa using hi)] at hj
    cases hj
  · rw [List.getElem?_set_ne hij, List.getElem?_map] at hj
    have hj' : l[j]? = some x := by
      cases hlj : l[j]? with
      | none =>
        rw [hlj] at hj
        cases hj
      | some y =>
        rw [hlj] at hj
        have hyx : y = x := by simpa using hj
        rw [hyx]
    obtain ⟨hjlen, hjx⟩ := List.getElem?_eq_some.mp hj'
    rcases hx with hx1 | hx2
    · exact hx1 (hjx ▸ List.getElem_mem hjlen)
    · have hgi : l.getD i 0 = l[i] := List.getD_eq_getElem l 0 hi
      have heq : l[j] = l[i] := by rw [hjx, hx2, hgi]
      exact hij ((hnd.getElem_inj_iff.mp heq).symm)

lemma none_mem_set_none (l : List (Option Nat)) (i : Nat) (hi : i < l.length) :
    none ∈ l.set i none :=
  List.mem_iff_getElem?.mpr ⟨i, @List.getElem?_set_self _ l i none hi⟩

/-- C7: Listener table exhaustion: from a fresh router, 64 allocations with
pairwise-distinct types all succeed; a 65th allocation of a type not
already bound fails `NoSpace`; after unbinding any one bound listener
cookie, allocating a type that is then unbound succeeds again. -/
theorem listener_table_exhaustion (e : Nat) (types : List Nat) (t' i t'' : Nat)
    (hnodup : types.Nodup) (hlen : types.length = MAX_LISTENER_HANDLES)
    (ht' : t' ∉ types) (hi : i < MAX_LISTENER_HANDLES)
    (ht'' : t'' ∉ types ∨ t'' = types.getD i 0) :
    ∃ st', allocListeners (Router.new e) types = .ok st' ∧
      (Router.listener st' t').1 = .error .noSpace ∧
      ∃ st'', Router.unbind st' (listener_cookie_from_index i) = (.ok (), st'', []) ∧
        ∃ c st''', Router.listener st'' t'' = (.ok c, st''') := by
  have hstart : (Router.new e).listeners =
      ([] : List Nat).map some ++ List.replicate MAX_LISTENER_HANDLES none := by
    simp [Router.new]
  obtain ⟨st', hrun, hfull, _, _, _⟩ :=
    allocListeners_run types [] MAX_LISTENER_HANDLES (Router.new e) hstart
      (by simpa using hnodup) (le_of_eq hlen)
  have hfull' : st'.listeners = types.map some := by
    rw [hfull, hlen]
    simp
  have hilen : i < types.length := by
    rw [hlen]
    exact hi
  refine ⟨st', hrun, ?_, ?_⟩
  · have hnomem : some t' ∉ st'.listeners := by
      rw [hfull']
      intro hmem
      rcases List.mem_map.mp hmem with ⟨x, hx, hxe⟩
      cases Option.some_inj.mp hxe
      exact ht' hx
    rw [Router.listener, if_neg (by rw [listeners_any_eq_false hnomem]; exact Bool.false_ne_true),
      hfull', bindFirstFreeListener_full]
  · have hgd : st'.listeners.getD i none = some (types.getD i 0) := by
      rw [hfull']
      exact getD_map_some types i hilen
    have hb : cookie_is_listener (listener_cookie_from_index i) = true :=
      cookie_is_listener_true hi
    have hidx : listeners_index_from_cookie (listener_cookie_from_index i) = some i :=
      listeners_index_some.mpr ⟨hi, rfl⟩
    have hunb : Router.unbind st' (listener_cookie_from_index i) =
        (.ok (), { st' with listeners := st'.listeners.set i none }, []) := by
      rw [List.getD_eq_getElem?_getD] at hgd
      simp [Router.unbind, hb, hidx, hgd]
    refine ⟨_, hunb, ?_⟩
    have hmem'' : some t'' ∉
        ({ st' with listeners := st'.listeners.set i none } : Router).listeners := by
      show some t'' ∉ st'.listeners.set i none
      rw [hfull']
      exact not_mem_set_map_some types hnodup i hilen t'' ht''
    have hfree'' : none ∈
        ({ st' with listeners := st'.listeners.set i none } : Router).listeners := by
      show none ∈ st'.listeners.set i none
      rw [hfull']
      exact none_mem_set_none (types.map some) i (by simpa using hilen)
    exact listener_succeeds hmem'' hfree''

/-- Witness for C7: 64 distinct types 0..63 fill the table; type 100 then
fails `NoSpace`; after unbinding cookie 0, type 200 binds again. -/
theorem listener_table_exhaustion_witness :
    ∃ st', allocListeners (Router.new 9) (List.range 64) = .ok st' ∧
      (Router.listener st' 100).1 = .error .noSpace ∧
      ∃ st'', Router.unbind st' (listener_cookie_from_index 0) = (.ok (), st'', []) ∧
        ∃ c st''', Router.listener st'' 200 = (.ok c, st''') :=
  listener_table_exhaustion 9 (List.range 64) 100 0 200 (List.nodup_range 64)
    (by decide) (by decide) (by decide) (Or.inl (by decide))

/-- Witness for C10 at the malformed cookie 200 on a fresh router. -/
theorem recv_no_validation_witness :
    (Router.recv (Router.new 7) 200).1 = none ∧
    Router.unbind (Router.new 7) 200 = (.error .badArgument, Router.new 7, []) := by
  refine ⟨(recv_no_validation (Router.new 7) 200).2.1 ?_,
    (recv_no_validation (Router.new 7) 200).2.2.2 (by decide)⟩
  intro p hp
  simp [Router.new] at hp

end Mctp
